import Mathlib

/-!
Shallow embedding of the smart-punch analytics pipeline.

Sources embedded here:
* `server/ble/packet.go` — the 20-byte sensor-frame decoder (`ParsePacket`,
  `AccelMS2`, `GyroDPS`, flag accessors).
* the analytics package (`Analyzer`, `HandState`, `ProcessPacket`,
  `classifyPunch`, session lifecycle, `buildStateLocked`).

Go `float64` values are modelled as real numbers (`ℝ`); the exact rational
scaling of the decoder is modelled over `ℚ`.  Machine integers are modelled
as `Nat`/`Int` with explicit reduction modulo 2^16 where the code converts
`uint16` to `int16`.  Go maps (`map[string]int`) are modelled as association
lists with Go's insert-or-increment update.  Fallible decoding returns
`Except`.
-/

namespace SmartPunch

/-! ### Packet layer (`server/ble/packet.go`) -/

/-- A byte of the incoming BLE buffer. -/
abbrev Byte := Fin 256

/-- `PacketSize` — expected size of a sensor packet in bytes. -/
def PacketSize : Nat := 20

/-- `SensorPacket` — decoded 20-byte binary packet.  The six motion fields
are Go `int16` (modelled as `ℤ`), `Timestamp` is `uint32`, `Sequence`
`uint16`, `Battery` and `Flags` `uint8` (modelled as `ℕ`). -/
structure SensorPacket where
  accX : ℤ
  accY : ℤ
  accZ : ℤ
  gyroX : ℤ
  gyroY : ℤ
  gyroZ : ℤ
  timestamp : ℕ
  sequence : ℕ
  battery : ℕ
  flags : ℕ
deriving DecidableEq

/-- Error type of the decoder: `ErrInvalidPacketSize` is the only error. -/
inductive PacketError where
  | invalidPacketSize
deriving DecidableEq

/-- Byte `i` of a buffer (in range when the caller has checked the length,
as `ParsePacket` does). -/
def byteAt (data : List Byte) (i : ℕ) : ℕ :=
  (data.getD i 0).val

/-- `binary.LittleEndian.Uint16(data[i:i+2])`. -/
def uint16At (data : List Byte) (i : ℕ) : ℕ :=
  byteAt data i + 256 * byteAt data (i + 1)

/-- `binary.LittleEndian.Uint32(data[i:i+4])`. -/
def uint32At (data : List Byte) (i : ℕ) : ℕ :=
  byteAt data i + 256 * byteAt data (i + 1) +
    65536 * byteAt data (i + 2) + 16777216 * byteAt data (i + 3)

/-- Go `int16(u)` for a `uint16` value `u`: two's-complement
reinterpretation (explicit reduction mod 2^16). -/
def int16OfUint16 (u : ℕ) : ℤ :=
  if u % 65536 < 32768 then ((u % 65536 : ℕ) : ℤ)
  else ((u % 65536 : ℕ) : ℤ) - 65536

/-- `ParsePacket` — decodes a 20-byte buffer into a `SensorPacket`;
returns `ErrInvalidPacketSize` when the length is not exactly 20. -/
def ParsePacket (data : List Byte) : Except PacketError SensorPacket :=
  if data.length = PacketSize then
    Except.ok
      { accX := int16OfUint16 (uint16At data 0)
        accY := int16OfUint16 (uint16At data 2)
        accZ := int16OfUint16 (uint16At data 4)
        gyroX := int16OfUint16 (uint16At data 6)
        gyroY := int16OfUint16 (uint16At data 8)
        gyroZ := int16OfUint16 (uint16At data 10)
        timestamp := uint32At data 12
        sequence := uint16At data 16
        battery := byteAt data 18
        flags := byteAt data 19 }
  else
    Except.error PacketError.invalidPacketSize

/-- `AccelMS2` — accelerometer values in m/s²: exact division by 100. -/
def AccelMS2 (p : SensorPacket) : ℚ × ℚ × ℚ :=
  ((p.accX : ℚ) / 100, (p.accY : ℚ) / 100, (p.accZ : ℚ) / 100)

/-- `GyroDPS` — gyroscope values in °/s: exact division by 10. -/
def GyroDPS (p : SensorPacket) : ℚ × ℚ × ℚ :=
  ((p.gyroX : ℚ) / 10, (p.gyroY : ℚ) / 10, (p.gyroZ : ℚ) / 10)

/-- `IsCharging` — bit 0 of the flags byte. -/
def IsCharging (p : SensorPacket) : Bool :=
  p.flags.testBit 0

/-- `IsCalibrated` — bit 1 of the flags byte. -/
def IsCalibrated (p : SensorPacket) : Bool :=
  p.flags.testBit 1

/-- Statement shape used for `C7`: `v` is the two's-complement `int16`
reading of the `uint16` value `u`. -/
def IsInt16TwosComplementOf (v : ℤ) (u : ℕ) : Prop :=
  -32768 ≤ v ∧ v < 32768 ∧ v % 65536 = (u : ℤ) % 65536

/-! ### Analytics layer (analyzer package)

Constants of the analytics package. -/

/-- `punchThreshold` — minimum acceleration magnitude (m/s²). -/
def punchThreshold : ℝ := 35.0

/-- `debounceMS` — minimum device-milliseconds between valid punches. -/
def debounceMS : ℤ := 300

/-- `hookGyroZThresh` — Z-axis rotation threshold for hooks (°/s). -/
def hookGyroZThresh : ℝ := 200.0

/-- `uppercutGyroXThresh` — X-axis rotation threshold for uppercuts (°/s). -/
def uppercutGyroXThresh : ℝ := 150.0

/-- `straightGyroMax` — maximal rotation for straight punches (°/s). -/
def straightGyroMax : ℝ := 150.0

/-- `maxRecentPunches` — capacity of the recent-punch history. -/
def maxRecentPunches : ℕ := 50

/-- `PunchType` — classification of a punch. -/
inductive PunchType where
  | straight
  | hook
  | uppercut
  | unknown
deriving DecidableEq

/-- The Go string value backing each `PunchType` constant. -/
def PunchType.str : PunchType → String
  | .straight => "straight"
  | .hook => "hook"
  | .uppercut => "uppercut"
  | .unknown => "unknown"

/-- Which glove a packet belongs to (`ble.Hand`). -/
inductive Hand where
  | left
  | right
deriving DecidableEq

/-- Hand name as used in `ProcessPacket` for the event record. -/
def Hand.name : Hand → String
  | .left => "left"
  | .right => "right"

/-- The six float readings of a packet, as the analyzer obtains them from
`AccelMS2` and `GyroDPS` (exact rational values coerced into `ℝ`). -/
def axf (p : SensorPacket) : ℝ := ((AccelMS2 p).1 : ℚ)
def ayf (p : SensorPacket) : ℝ := ((AccelMS2 p).2.1 : ℚ)
def azf (p : SensorPacket) : ℝ := ((AccelMS2 p).2.2 : ℚ)
def gxf (p : SensorPacket) : ℝ := ((GyroDPS p).1 : ℚ)
def gyf (p : SensorPacket) : ℝ := ((GyroDPS p).2.1 : ℚ)
def gzf (p : SensorPacket) : ℝ := ((GyroDPS p).2.2 : ℚ)

/-- `PunchEvent` — a detected punch.  The Go field `Type` is rendered as
`PType` because `Type` is reserved in Lean. -/
structure PunchEvent where
  Hand : String
  PType : PunchType
  Force : ℝ
  RotationZ : ℝ
  Timestamp : ℤ
  Count : ℕ

/-- `HandState` — analytics for one hand.  `PunchBreakdown` models the Go
`map[string]int` as an association list; the three lowercase fields are the
unexported (internal) fields of the Go struct. -/
structure HandState where
  Connected : Bool
  Calibrated : Bool
  Battery : ℕ
  PacketLoss : ℝ
  PunchCount : ℕ
  PunchBreakdown : List (String × ℕ)
  MaxForce : ℝ
  AvgForce : ℝ
  PunchesPerMin : ℝ
  RecentPunches : List PunchEvent
  CurrentAccel : ℝ × ℝ × ℝ
  CurrentGyro : ℝ × ℝ × ℝ
  forceSum : ℝ
  lastPunchTS : ℤ
  lastPunchTime : ℝ

/-- `CombinedStats` — aggregated stats from both hands.  `IntensityScore`
is a Go `int` (`ℤ`). -/
structure CombinedStats where
  TotalPunches : ℕ
  AvgForce : ℝ
  MaxForce : ℝ
  PunchesPerMin : ℝ
  PunchesPerSec : ℝ
  IntensityScore : ℤ

/-- `SessionState` — full snapshot broadcast to clients. -/
structure SessionState where
  Active : Bool
  ElapsedSec : ℝ
  Left : HandState
  Right : HandState
  Combined : CombinedStats
  Paused : Bool

/-- `Analyzer` — both hand states plus the session flags.  Wall-clock
instants (`time.Time`) are modelled as seconds in `ℝ`; every operation
that reads the clock takes the current instant as an argument. -/
structure Analyzer where
  left : HandState
  right : HandState
  active : Bool
  paused : Bool
  startedAt : ℝ

/-- `newHandState` — the initialized hand state: Go zero values, an empty
breakdown map and an empty recent-punch list. -/
def newHandState : HandState :=
  { Connected := false
    Calibrated := false
    Battery := 0
    PacketLoss := 0
    PunchCount := 0
    PunchBreakdown := []
    MaxForce := 0
    AvgForce := 0
    PunchesPerMin := 0
    RecentPunches := []
    CurrentAccel := (0, 0, 0)
    CurrentGyro := (0, 0, 0)
    forceSum := 0
    lastPunchTS := 0
    lastPunchTime := 0 }

/-- `NewAnalyzer` — fresh analyzer (session inactive, zero start time). -/
def NewAnalyzer : Analyzer :=
  { left := newHandState
    right := newHandState
    active := false
    paused := false
    startedAt := 0 }

/-- The hand state selected by `ProcessPacket`/`SetConnected` for a hand. -/
def Analyzer.getHand (a : Analyzer) : Hand → HandState
  | .left => a.left
  | .right => a.right

/-- Writing back the selected hand state. -/
def Analyzer.setHand (a : Analyzer) : Hand → HandState → Analyzer
  | .left, st => { a with left := st }
  | .right, st => { a with right := st }

/-- `StartSession` — resets both hands, activates the session, clears the
paused flag and records the session start instant `now`. -/
def StartSession (a : Analyzer) (now : ℝ) : Analyzer :=
  { a with
    left := newHandState
    right := newHandState
    active := true
    paused := false
    startedAt := now }

/-- `ResetSession` — clears all stats and stops the session. -/
def ResetSession (a : Analyzer) : Analyzer :=
  { a with
    left := newHandState
    right := newHandState
    active := false
    paused := false }

/-- `PauseSession` — sets the paused flag, only for an active session. -/
def PauseSession (a : Analyzer) : Analyzer :=
  if a.active then { a with paused := true } else a

/-- `ResumeSession` — clears the paused flag of an active paused session. -/
def ResumeSession (a : Analyzer) : Analyzer :=
  if a.active && a.paused then { a with paused := false } else a

/-- `SetConnected` — updates a hand's connectivity flag; pauses on a
connected→disconnected transition of an active session, and clears the
paused flag whenever a glove reports connected while the active session is
paused (the two Go `if` statements run in sequence). -/
def SetConnected (a : Analyzer) (hand : Hand) (connected : Bool) : Analyzer :=
  let st := a.getHand hand
  let wasConnected := st.Connected
  let a1 := a.setHand hand { st with Connected := connected }
  let p1 := if a1.active && wasConnected && !connected then true else a1.paused
  let p2 := if a1.active && p1 && connected then false else p1
  { a1 with paused := p2 }

/-- Go `math.Round`: round half away from zero. -/
noncomputable def goRound (x : ℝ) : ℤ :=
  if 0 ≤ x then ⌊x + 1 / 2⌋ else -⌊-x + 1 / 2⌋

/-- Go `int(x)` conversion from `float64`: truncation toward zero. -/
noncomputable def goTrunc (x : ℝ) : ℤ :=
  if 0 ≤ x then ⌊x⌋ else -⌊-x⌋

/-- Go `m[k]++` on a `map[string]int` modelled as an association list:
increment in place, or insert the key with value 1 when absent. -/
def mapIncr : List (String × ℕ) → String → List (String × ℕ)
  | [], k => [(k, 1)]
  | (k₀, v) :: rest, k =>
    if k₀ = k then (k₀, v + 1) :: rest else (k₀, v) :: mapIncr rest k

/-- `classifyPunch` — punch classification from motion data (the six
arguments mirror the Go signature; the acceleration components are unused
by the classifier). -/
noncomputable def classifyPunch (ax ay az gx gy gz : ℝ) : PunchType :=
  let absGX := |gx|
  let absGY := |gy|
  let absGZ := |gz|
  if absGZ > hookGyroZThresh then
    PunchType.hook
  else if absGX > uppercutGyroXThresh then
    PunchType.uppercut
  else
    let maxRotation := max absGX (max absGY absGZ)
    if maxRotation < straightGyroMax then
      PunchType.straight
    else
      PunchType.unknown

/-- The stats update performed by `ProcessPacket` once a punch is detected
(the body of the detection branch, lines updating the selected hand state);
`mag` is the acceleration magnitude computed by the caller, `startedAt` the
session start instant and `now` the current wall-clock instant. -/
noncomputable def recordPunch (st : HandState) (handName : String)
    (p : SensorPacket) (mag startedAt now : ℝ) : HandState :=
  let punchType := classifyPunch (axf p) (ayf p) (azf p) (gxf p) (gyf p) (gzf p)
  let newCount := st.PunchCount + 1
  let newMax := if mag > st.MaxForce then mag else st.MaxForce
  let newSum := st.forceSum + mag
  let newAvg := newSum / (newCount : ℝ)
  let elapsedMin := (now - startedAt) / 60
  let newPpm := if elapsedMin > 0 then (newCount : ℝ) / elapsedMin else st.PunchesPerMin
  let event : PunchEvent :=
    { Hand := handName
      PType := punchType
      Force := (goRound (mag * 100) : ℝ) / 100
      RotationZ := |gzf p|
      Timestamp := (p.timestamp : ℤ)
      Count := newCount }
  let recent₀ := st.RecentPunches ++ [event]
  let recent := if recent₀.length > maxRecentPunches then recent₀.drop 1 else recent₀
  { st with
    PunchCount := newCount
    lastPunchTS := (p.timestamp : ℤ)
    lastPunchTime := now
    MaxForce := newMax
    forceSum := newSum
    AvgForce := newAvg
    PunchesPerMin := newPpm
    PunchBreakdown := mapIncr st.PunchBreakdown punchType.str
    RecentPunches := recent }

/-- The per-hand effect of `ProcessPacket`: battery, calibration and live
readings are stored unconditionally; analysis is skipped unless the session
is active and not paused; otherwise threshold + debounce decide whether a
punch is recorded. -/
noncomputable def processHand (st : HandState) (handName : String)
    (p : SensorPacket) (active paused : Bool) (startedAt now : ℝ) : HandState :=
  let st₁ := { st with Battery := p.battery, Calibrated := IsCalibrated p }
  let st₂ := { st₁ with
    CurrentAccel := (axf p, ayf p, azf p)
    CurrentGyro := (gxf p, gyf p, gzf p) }
  if !active || paused then st₂
  else
    let mag := Real.sqrt (axf p * axf p + ayf p * ayf p + azf p * azf p)
    let timeSinceLast : ℤ := (p.timestamp : ℤ) - st₂.lastPunchTS
    if mag > punchThreshold ∧ timeSinceLast > debounceMS then
      recordPunch st₂ handName p mag startedAt now
    else
      st₂

/-- `ProcessPacket` — handles an incoming sensor packet for one hand. -/
noncomputable def ProcessPacket (a : Analyzer) (hand : Hand)
    (p : SensorPacket) (now : ℝ) : Analyzer :=
  a.setHand hand
    (processHand (a.getHand hand) hand.name p a.active a.paused a.startedAt now)

/-- `BroadcastTick` — periodic broadcast; it mutates no analyzer state. -/
def BroadcastTick (a : Analyzer) : Analyzer := a

/-- `copyHandState` — the snapshot copy of a hand state: all exported
fields are copied, the unexported fields are left at their zero values. -/
def copyHandState (h : HandState) : HandState :=
  { Connected := h.Connected
    Calibrated := h.Calibrated
    Battery := h.Battery
    PacketLoss := h.PacketLoss
    PunchCount := h.PunchCount
    PunchBreakdown := h.PunchBreakdown
    MaxForce := h.MaxForce
    AvgForce := h.AvgForce
    PunchesPerMin := h.PunchesPerMin
    RecentPunches := h.RecentPunches
    CurrentAccel := h.CurrentAccel
    CurrentGyro := h.CurrentGyro
    forceSum := 0
    lastPunchTS := 0
    lastPunchTime := 0 }

/-- `buildStateLocked` — the published snapshot: elapsed seconds (0 while
inactive), copies of both hand states, and the derived combined stats. -/
noncomputable def buildStateLocked (a : Analyzer) (now : ℝ) : SessionState :=
  let elapsed : ℝ := if a.active then now - a.startedAt else 0
  let total := a.left.PunchCount + a.right.PunchCount
  let combined : CombinedStats :=
    if total > 0 then
      let totalForce := a.left.forceSum + a.right.forceSum
      let avg := totalForce / (total : ℝ)
      let maxF := max a.left.MaxForce a.right.MaxForce
      if elapsed > 0 then
        let elapsedMin := elapsed / 60
        let intensity : ℤ :=
          if elapsedMin > 0.1 then goTrunc ((total : ℝ) * avg / elapsedMin) else 0
        { TotalPunches := total
          AvgForce := avg
          MaxForce := maxF
          PunchesPerMin := (total : ℝ) / elapsedMin
          PunchesPerSec := (total : ℝ) / elapsed
          IntensityScore := intensity }
      else
        { TotalPunches := total
          AvgForce := avg
          MaxForce := maxF
          PunchesPerMin := 0
          PunchesPerSec := 0
          IntensityScore := 0 }
    else
      { TotalPunches := total
        AvgForce := 0
        MaxForce := 0
        PunchesPerMin := 0
        PunchesPerSec := 0
        IntensityScore := 0 }
  { Active := a.active
    ElapsedSec := elapsed
    Left := copyHandState a.left
    Right := copyHandState a.right
    Combined := combined
    Paused := a.paused }

/-- `GetState` — snapshot read (same builder as every broadcast). -/
noncomputable def GetState (a : Analyzer) (now : ℝ) : SessionState :=
  buildStateLocked a now

/-- The externally driven operations of the analyzer, for reachability
statements. -/
inductive Op where
  | start (now : ℝ)
  | reset
  | pause
  | resume
  | setConnected (hand : Hand) (connected : Bool)
  | process (hand : Hand) (p : SensorPacket) (now : ℝ)
  | tick

/-- One operation applied to the analyzer state. -/
noncomputable def applyOp (a : Analyzer) : Op → Analyzer
  | .start now => StartSession a now
  | .reset => ResetSession a
  | .pause => PauseSession a
  | .resume => ResumeSession a
  | .setConnected hand c => SetConnected a hand c
  | .process hand p now => ProcessPacket a hand p now
  | .tick => BroadcastTick a

/-- The state reached from a fresh analyzer by a sequence of operations. -/
noncomputable def runOps (ops : List Op) : Analyzer :=
  ops.foldl applyOp NewAnalyzer

/-- Classification cascade spelled exactly as the spec words it (used in
`C5` to compare the source classifier against the spec's rule order). -/
noncomputable def classifySpecCascade (gx gy gz : ℝ) : PunchType :=
  if |gz| > 200.0 then PunchType.hook
  else if |gx| > 150.0 then PunchType.uppercut
  else if max |gx| (max |gy| |gz|) < 150.0 then PunchType.straight
  else PunchType.unknown

/-- A sequence of recorded punches on one hand: each entry carries the
triggering packet, the acceleration magnitude the caller computed for it,
and the wall-clock instant of the update (`C6`). -/
noncomputable def recordPunchSeq (evs : List (SensorPacket × ℝ × ℝ))
    (hn : String) (t₀ : ℝ) (st : HandState) : HandState :=
  evs.foldl (fun s e => recordPunch s hn e.1 e.2.1 t₀ e.2.2) st

/-- A packet 40 m/s² strong on the X axis with device timestamp 100 ms —
inside the debounce window measured from the zero-initialized
last-punch timestamp. -/
def pktEarly : SensorPacket :=
  { accX := 4000, accY := 0, accZ := 0
    gyroX := 0, gyroY := 0, gyroZ := 0
    timestamp := 100, sequence := 1, battery := 80, flags := 2 }

/-- The same strike with device timestamp 1000 ms — past the debounce
window. -/
def pktLate : SensorPacket :=
  { accX := 4000, accY := 0, accZ := 0
    gyroX := 0, gyroY := 0, gyroZ := 0
    timestamp := 1000, sequence := 2, battery := 80, flags := 2 }

/-- An analyzer three seconds into an active session holding exactly one
recorded punch of force 40 on the left hand (`C3` counterexample input). -/
def anaOnePunch : Analyzer :=
  { left := { newHandState with PunchCount := 1, forceSum := 40, MaxForce := 40 }
    right := newHandState
    active := true
    paused := false
    startedAt := 0 }

/-- An active analyzer with two left punches of total force 80, used to
exercise the amended combined-stats formula at elapsed = 60 s. -/
def anaTwoPunch : Analyzer :=
  { left := { newHandState with PunchCount := 2, forceSum := 80, MaxForce := 45 }
    right := newHandState
    active := true
    paused := false
    startedAt := 0 }

/-- An active session whose left glove connected and then dropped: the
session is paused and the right glove has never been connected (`C4`
counterexample input). -/
def anaLeftDropped : Analyzer :=
  SetConnected (SetConnected (StartSession NewAnalyzer 0) Hand.left true) Hand.left false

/-- A 20-byte frame: accX = −1 raw, accY = 10000 raw, gyroX = 2000 raw,
timestamp = 1000, sequence = 1, battery = 90, flags = 3. -/
def bufFrame : List Byte :=
  [255, 255, 16, 39, 0, 0, 208, 7, 0, 0, 0, 0, 232, 3, 0, 0, 1, 0, 90, 3]

/-- The packet `bufFrame` decodes to. -/
def pktFrame : SensorPacket :=
  { accX := -1, accY := 10000, accZ := 0
    gyroX := 2000, gyroY := 0, gyroZ := 0
    timestamp := 1000, sequence := 1, battery := 90, flags := 3 }

/-! ### Helper lemmas -/

theorem int16OfUint16_spec (u : ℕ) :
    IsInt16TwosComplementOf (int16OfUint16 u) u := by
  unfold IsInt16TwosComplementOf int16OfUint16
  have h : u % 65536 < 65536 := Nat.mod_lt _ (by norm_num)
  split <;> push_cast <;> omega

theorem lookup_mapIncr (m : List (String × ℕ)) (k k₀ : String) :
    List.lookup k (mapIncr m k₀) =
      if k = k₀ then some ((List.lookup k m).getD 0 + 1) else List.lookup k m := by
  induction m with
  | nil =>
    by_cases h : k = k₀
    · subst h
      simp [mapIncr, List.lookup_cons]
    · simp [mapIncr, List.lookup_cons, h, beq_false_of_ne h]
  | cons hd tl ih =>
    obtain ⟨k₁, v⟩ := hd
    by_cases h1 : k₁ = k₀
    · subst h1
      by_cases h2 : k = k₁
      · subst h2
        simp [mapIncr, List.lookup_cons]
      · simp [mapIncr, List.lookup_cons, h2, beq_false_of_ne h2]
    · by_cases h2 : k = k₁
      · subst h2
        have hne : ¬k = k₀ := fun hh => h1 hh
        simp [mapIncr, h1, List.lookup_cons, hne]
      · simp [mapIncr, h1, List.lookup_cons, h2, beq_false_of_ne h2, ih]

theorem lookup_foldl_mapIncr_isSome (l : List String) (m : List (String × ℕ))
    (k : String) :
    (List.lookup k (l.foldl mapIncr m)).isSome
      = (l.contains k || (List.lookup k m).isSome) := by
  induction l generalizing m with
  | nil => simp
  | cons x xs ih =>
    rw [List.foldl_cons, ih]
    by_cases h : k = x
    · subst h
      simp [lookup_mapIncr]
    · simp [lookup_mapIncr, h, Ne.symm h, List.contains_cons]

/-! ### Claim C7 -/

/-- C7: decoding fails with the malformed-frame error exactly when the
buffer is not 20 bytes long, and on a 20-byte buffer it succeeds: every
signed field is the little-endian two's-complement `int16` of its two
bytes, timestamp and sequence are read little-endian, and the engineering
scalings are exact division by 100 (acceleration, hundredths of m/s²) and
by 10 (angular rate, tenths of °/s). -/
theorem C7_parse_packet (data : List Byte) :
    ((∃ p, ParsePacket data = Except.ok p) ↔ data.length = 20) ∧
    (ParsePacket data = Except.error PacketError.invalidPacketSize ↔ data.length ≠ 20) ∧
    (∀ p, ParsePacket data = Except.ok p →
      IsInt16TwosComplementOf p.accX (uint16At data 0) ∧
      IsInt16TwosComplementOf p.accY (uint16At data 2) ∧
      IsInt16TwosComplementOf p.accZ (uint16At data 4) ∧
      IsInt16TwosComplementOf p.gyroX (uint16At data 6) ∧
      IsInt16TwosComplementOf p.gyroY (uint16At data 8) ∧
      IsInt16TwosComplementOf p.gyroZ (uint16At data 10) ∧
      p.timestamp = uint32At data 12 ∧
      p.sequence = uint16At data 16 ∧
      p.battery = byteAt data 18 ∧
      p.flags = byteAt data 19 ∧
      AccelMS2 p = ((p.accX : ℚ) / 100, (p.accY : ℚ) / 100, (p.accZ : ℚ) / 100) ∧
      GyroDPS p = ((p.gyroX : ℚ) / 10, (p.gyroY : ℚ) / 10, (p.gyroZ : ℚ) / 10)) := by
  by_cases h : data.length = 20
  · have hcond : data.length = PacketSize := h
    refine ⟨?_, ?_, ?_⟩
    · simp only [ParsePacket, if_pos hcond]
      exact ⟨fun _ => h, fun _ => ⟨_, rfl⟩⟩
    · simp only [ParsePacket, if_pos hcond]
      simp [h]
    · intro p hp
      simp only [ParsePacket, if_pos hcond, Except.ok.injEq] at hp
      subst hp
      exact ⟨int16OfUint16_spec _, int16OfUint16_spec _, int16OfUint16_spec _,
        int16OfUint16_spec _, int16OfUint16_spec _, int16OfUint16_spec _,
        rfl, rfl, rfl, rfl, rfl, rfl⟩
  · have hcond : ¬data.length = PacketSize := h
    refine ⟨?_, ?_, ?_⟩
    · simp only [ParsePacket, if_neg hcond]
      simp [h]
    · simp only [ParsePacket, if_neg hcond]
      simp [h]
    · intro p hp
      simp only [ParsePacket, if_neg hcond] at hp
      exact absurd hp (by simp)

/-- Witness for C7 at the concrete frame `bufFrame`. -/
theorem C7_parse_packet_witness :
    IsInt16TwosComplementOf pktFrame.accX (uint16At bufFrame 0) ∧
    IsInt16TwosComplementOf pktFrame.accY (uint16At bufFrame 2) ∧
    IsInt16TwosComplementOf pktFrame.accZ (uint16At bufFrame 4) ∧
    IsInt16TwosComplementOf pktFrame.gyroX (uint16At bufFrame 6) ∧
    IsInt16TwosComplementOf pktFrame.gyroY (uint16At bufFrame 8) ∧
    IsInt16TwosComplementOf pktFrame.gyroZ (uint16At bufFrame 10) ∧
    pktFrame.timestamp = uint32At bufFrame 12 ∧
    pktFrame.sequence = uint16At bufFrame 16 ∧
    pktFrame.battery = byteAt bufFrame 18 ∧
    pktFrame.flags = byteAt bufFrame 19 ∧
    AccelMS2 pktFrame =
      ((pktFrame.accX : ℚ) / 100, (pktFrame.accY : ℚ) / 100, (pktFrame.accZ : ℚ) / 100) ∧
    GyroDPS pktFrame =
      ((pktFrame.gyroX : ℚ) / 10, (pktFrame.gyroY : ℚ) / 10, (pktFrame.gyroZ : ℚ) / 10) :=
  (C7_parse_packet bufFrame).2.2 pktFrame (by rfl)

/-! ### Claim C5 -/

/-- C5: the source classifier agrees with the spec's ordered cascade
(hook before uppercut before the straight ceiling), every signature is
mapped to one of the four categories, and classification is
deterministic. -/
theorem C5_classifier (ax ay az gx gy gz : ℝ) :
    classifyPunch ax ay az gx gy gz = classifySpecCascade gx gy gz ∧
    (classifyPunch ax ay az gx gy gz = PunchType.straight ∨
     classifyPunch ax ay az gx gy gz = PunchType.hook ∨
     classifyPunch ax ay az gx gy gz = PunchType.uppercut ∨
     classifyPunch ax ay az gx gy gz = PunchType.unknown) ∧
    classifyPunch ax ay az gx gy gz = classifyPunch ax ay az gx gy gz := by
  refine ⟨rfl, ?_, rfl⟩
  simp only [classifyPunch]
  split
  · exact Or.inr (Or.inl rfl)
  · split
    · exact Or.inr (Or.inr (Or.inl rfl))
    · split
      · exact Or.inl rfl
      · exact Or.inr (Or.inr (Or.inr rfl))

/-! ### Claim C2 (corrected) -/

/-- Counterexample to C2 as stated: the histogram of a freshly initialized
hand state — and of the snapshot published for a fresh analyzer — contains
none of the four category keys. -/
theorem C2_counterexample :
    List.lookup "straight" (buildStateLocked NewAnalyzer 0).Left.PunchBreakdown = none ∧
    List.lookup "hook" NewAnalyzer.left.PunchBreakdown = none ∧
    List.lookup "uppercut" NewAnalyzer.left.PunchBreakdown = none ∧
    List.lookup "unknown" NewAnalyzer.left.PunchBreakdown = none := by
  exact ⟨rfl, rfl, rfl, rfl⟩

/-- C2 amended: a hand's histogram starts empty; `recordPunch` updates it
with Go's insert-or-increment, so after any sequence of recorded
categories a key is present exactly when that category has occurred at
least once (absent keys denote a zero count). -/
theorem C2_amended_histogram_keys (l : List String) (k : String) :
    newHandState.PunchBreakdown = [] ∧
    (List.lookup k (l.foldl mapIncr newHandState.PunchBreakdown)).isSome
      = l.contains k ∧
    (∀ (st : HandState) (hn : String) (p : SensorPacket) (mag t₀ t₁ : ℝ),
      (recordPunch st hn p mag t₀ t₁).PunchBreakdown
        = mapIncr st.PunchBreakdown
            (classifyPunch (axf p) (ayf p) (azf p) (gxf p) (gyf p) (gzf p)).str) := by
  refine ⟨rfl, ?_, fun st hn p mag t₀ t₁ => rfl⟩
  rw [lookup_foldl_mapIncr_isSome]
  simp [newHandState]

/-! ### Claim C4 (corrected) -/

/-- Counterexample to C4 as stated: with the session active and paused
after the left glove dropped, a first-ever connection of the right glove
(never connected before) resumes the session, although the claim says a
never-connected→connected change neither pauses nor resumes. -/
theorem C4_counterexample :
    anaLeftDropped.active = true ∧
    anaLeftDropped.paused = true ∧
    anaLeftDropped.right.Connected = false ∧
    (SetConnected anaLeftDropped Hand.right true).paused = false := by
  exact ⟨rfl, rfl, rfl, rfl⟩

/-- C4 amended: a connectivity update always stores the new flag and keeps
the active flag; the paused flag becomes true exactly on a
connected→disconnected transition of an active session (or if it already
was true and no resume applies), and an update with connected = true —
including a first-ever connection — clears the paused flag of an active
paused session. -/
theorem C4_amended_connectivity (a : Analyzer) (hand : Hand) (c : Bool) :
    ((SetConnected a hand c).getHand hand).Connected = c ∧
    (SetConnected a hand c).active = a.active ∧
    ((SetConnected a hand c).paused = true ↔
      (a.active = true ∧ (a.getHand hand).Connected = true ∧ c = false) ∨
      (a.paused = true ∧ ¬(a.active = true ∧ c = true))) := by
  cases hand
  · simp only [SetConnected, Analyzer.getHand, Analyzer.setHand]
    refine ⟨trivial, trivial, ?_⟩
    cases ha : a.active <;> cases hp : a.paused <;>
      cases hw : a.left.Connected <;> cases c <;> simp_all
  · simp only [SetConnected, Analyzer.getHand, Analyzer.setHand]
    refine ⟨trivial, trivial, ?_⟩
    cases ha : a.active <;> cases hp : a.paused <;>
      cases hw : a.right.Connected <;> cases c <;> simp_all

/-! ### Claim C1 (corrected) -/

/-- Unfolding of `processHand` for an active, unpaused session. -/
theorem processHand_active (st : HandState) (hn : String) (p : SensorPacket)
    (t₀ t₁ : ℝ) :
    processHand st hn p true false t₀ t₁ =
      (if Real.sqrt (axf p * axf p + ayf p * ayf p + azf p * azf p) > punchThreshold ∧
           (p.timestamp : ℤ) - st.lastPunchTS > debounceMS
       then recordPunch
          { st with
            Battery := p.battery
            Calibrated := IsCalibrated p
            CurrentAccel := (axf p, ayf p, azf p)
            CurrentGyro := (gxf p, gyf p, gzf p) }
          hn p (Real.sqrt (axf p * axf p + ayf p * ayf p + azf p * azf p)) t₀ t₁
       else
          { st with
            Battery := p.battery
            Calibrated := IsCalibrated p
            CurrentAccel := (axf p, ayf p, azf p)
            CurrentGyro := (gxf p, gyf p, gzf p) }) :=
  rfl

/-- Counterexample to C1 as stated: in a freshly started session the left
hand has no prior event, yet a 40 m/s² strike stamped 100 ms is
suppressed, because the last-event timestamp is initialized to 0 and
100 − 0 ≤ 300; the claim predicts a detection regardless of the timestamp
value. -/
theorem C1_counterexample :
    Real.sqrt (axf pktEarly * axf pktEarly + ayf pktEarly * ayf pktEarly +
        azf pktEarly * azf pktEarly) > punchThreshold ∧
    (StartSession NewAnalyzer 0).left.lastPunchTS = 0 ∧
    (ProcessPacket (StartSession NewAnalyzer 0) Hand.left pktEarly 1).left.PunchCount = 0 := by
  have hax : axf pktEarly = 40 := by
    norm_num [axf, AccelMS2, pktEarly]
  have hay : ayf pktEarly = 0 := by
    norm_num [ayf, AccelMS2, pktEarly]
  have haz : azf pktEarly = 0 := by
    norm_num [azf, AccelMS2, pktEarly]
  have hmag : Real.sqrt (axf pktEarly * axf pktEarly + ayf pktEarly * ayf pktEarly +
      azf pktEarly * azf pktEarly) = 40 := by
    rw [hax, hay, haz]
    rw [show (40 : ℝ) * 40 + 0 * 0 + 0 * 0 = 40 ^ 2 by ring]
    exact Real.sqrt_sq (by norm_num)
  refine ⟨by rw [hmag]; norm_num [punchThreshold], rfl, ?_⟩
  show (processHand newHandState "left" pktEarly true false 0 1).PunchCount = 0
  rw [processHand_active]
  rw [if_neg]
  · rfl
  · intro hcon
    have h2 := hcon.2
    norm_num [pktEarly, newHandState, debounceMS] at h2

/-- C1 amended: while the session is active and not paused, a detection
fires if and only if the acceleration magnitude √(ax²+ay²+az²) exceeds the
35 m/s² threshold and the sample's timestamp minus the hand's last-event
timestamp exceeds the 300 ms debounce window, where the last-event
timestamp starts at 0 (not at a sentinel) — so a source with no prior
event fires only for timestamps above 300 ms; on firing the last-event
timestamp becomes the sample's timestamp, otherwise count and timestamp
are unchanged. -/
theorem C1_amended_detection (a : Analyzer) (hand : Hand) (p : SensorPacket)
    (now : ℝ) (hact : a.active = true) (hpau : a.paused = false) :
    (((ProcessPacket a hand p now).getHand hand).PunchCount,
      ((ProcessPacket a hand p now).getHand hand).lastPunchTS) =
      if Real.sqrt (axf p * axf p + ayf p * ayf p + azf p * azf p) > punchThreshold ∧
          (p.timestamp : ℤ) - (a.getHand hand).lastPunchTS > debounceMS
      then ((a.getHand hand).PunchCount + 1, (p.timestamp : ℤ))
      else ((a.getHand hand).PunchCount, (a.getHand hand).lastPunchTS) := by
  cases hand
  · simp only [ProcessPacket, Analyzer.getHand, Analyzer.setHand, Hand.name]
    rw [hact, hpau, processHand_active]
    by_cases hC : Real.sqrt (axf p * axf p + ayf p * ayf p + azf p * azf p) > punchThreshold ∧
        (p.timestamp : ℤ) - a.left.lastPunchTS > debounceMS
    · rw [if_pos hC, if_pos hC]
      rfl
    · rw [if_neg hC, if_neg hC]
  · simp only [ProcessPacket, Analyzer.getHand, Analyzer.setHand, Hand.name]
    rw [hact, hpau, processHand_active]
    by_cases hC : Real.sqrt (axf p * axf p + ayf p * ayf p + azf p * azf p) > punchThreshold ∧
        (p.timestamp : ℤ) - a.right.lastPunchTS > debounceMS
    · rw [if_pos hC, if_pos hC]
      rfl
    · rw [if_neg hC, if_neg hC]

/-- Witness for the amended C1: in a freshly started session a 40 m/s²
strike stamped 1000 ms fires (1000 − 0 > 300). -/
theorem C1_amended_witness :
    (((ProcessPacket (StartSession NewAnalyzer 0) Hand.left pktLate 1).getHand
          Hand.left).PunchCount,
      ((ProcessPacket (StartSession NewAnalyzer 0) Hand.left pktLate 1).getHand
          Hand.left).lastPunchTS) =
      if Real.sqrt (axf pktLate * axf pktLate + ayf pktLate * ayf pktLate +
            azf pktLate * azf pktLate) > punchThreshold ∧
          (pktLate.timestamp : ℤ) -
              ((StartSession NewAnalyzer 0).getHand Hand.left).lastPunchTS > debounceMS
      then (((StartSession NewAnalyzer 0).getHand Hand.left).PunchCount + 1,
            (pktLate.timestamp : ℤ))
      else (((StartSession NewAnalyzer 0).getHand Hand.left).PunchCount,
            ((StartSession NewAnalyzer 0).getHand Hand.left).lastPunchTS) :=
  C1_amended_detection (StartSession NewAnalyzer 0) Hand.left pktLate 1 rfl rfl

/-! ### Claim C3 (corrected) -/

theorem goTrunc_eq_floor (x : ℝ) (h : 0 ≤ x) : goTrunc x = ⌊x⌋ := by
  unfold goTrunc
  exact if_pos h

/-- Counterexample to C3 as stated: three seconds into an active session
with one punch, elapsed minutes (0.05) are not above 0.1, yet the
published events-per-minute is 20, not 0 — only the intensity score is
guarded by the 0.1-minute check. -/
theorem C3_counterexample :
    ((3 : ℝ) - anaOnePunch.startedAt) / 60 ≤ 0.1 ∧
    (buildStateLocked anaOnePunch 3).Combined.PunchesPerMin = 20 ∧
    (buildStateLocked anaOnePunch 3).Combined.PunchesPerMin ≠ 0 := by
  refine ⟨by norm_num [anaOnePunch], ?_, ?_⟩ <;>
    norm_num [buildStateLocked, anaOnePunch, newHandState]

/-- C3 amended: with total event count > 0 and the session active, the
combined events-per-minute and events-per-second are computed whenever
elapsed seconds are positive (eventsPerMinute = total/elapsedMinutes,
eventsPerSecond = total/elapsedSeconds); the intensity score alone also
requires elapsedMinutes > 0.1, in which case it is
floor(total·avgForce/elapsedMinutes); with elapsed seconds not positive
all three fields remain zero. -/
theorem C3_amended_rates (a : Analyzer) (now : ℝ)
    (hact : a.active = true)
    (htot : 0 < a.left.PunchCount + a.right.PunchCount)
    (hfs : 0 ≤ a.left.forceSum + a.right.forceSum) :
    (now - a.startedAt > 0 →
      (buildStateLocked a now).Combined.PunchesPerMin =
        ((a.left.PunchCount + a.right.PunchCount : ℕ) : ℝ) /
          ((now - a.startedAt) / 60) ∧
      (buildStateLocked a now).Combined.PunchesPerSec =
        ((a.left.PunchCount + a.right.PunchCount : ℕ) : ℝ) / (now - a.startedAt) ∧
      (buildStateLocked a now).Combined.IntensityScore =
        (if (now - a.startedAt) / 60 > 0.1 then
          ⌊((a.left.PunchCount + a.right.PunchCount : ℕ) : ℝ) *
              ((a.left.forceSum + a.right.forceSum) /
                ((a.left.PunchCount + a.right.PunchCount : ℕ) : ℝ)) /
              ((now - a.startedAt) / 60)⌋
         else 0)) ∧
    (¬now - a.startedAt > 0 →
      (buildStateLocked a now).Combined.PunchesPerMin = 0 ∧
      (buildStateLocked a now).Combined.PunchesPerSec = 0 ∧
      (buildStateLocked a now).Combined.IntensityScore = 0) := by
  constructor
  · intro he
    simp only [buildStateLocked, hact, if_true, gt_iff_lt]
    rw [if_pos htot, if_pos he]
    refine ⟨rfl, rfl, ?_⟩
    by_cases hm : (now - a.startedAt) / 60 > 0.1
    · rw [if_pos hm, if_pos hm]
      apply goTrunc_eq_floor
      have h1 : (0 : ℝ) ≤ ((a.left.PunchCount + a.right.PunchCount : ℕ) : ℝ) :=
        Nat.cast_nonneg _
      have h2 : (0 : ℝ) ≤ (a.left.forceSum + a.right.forceSum) /
          ((a.left.PunchCount + a.right.PunchCount : ℕ) : ℝ) :=
        div_nonneg hfs h1
      have h3 : (0 : ℝ) ≤ (now - a.startedAt) / 60 := by linarith
      exact div_nonneg (mul_nonneg h1 h2) h3
    · rw [if_neg hm, if_neg hm]
  · intro he
    simp only [buildStateLocked, hact, if_true, gt_iff_lt]
    rw [if_pos htot, if_neg he]
    exact ⟨rfl, rfl, rfl⟩

/-- Witness for the amended C3: two punches of total force 80, sixty
seconds into the session. -/
theorem C3_amended_witness :
    (buildStateLocked anaTwoPunch 60).Combined.PunchesPerMin =
      ((anaTwoPunch.left.PunchCount + anaTwoPunch.right.PunchCount : ℕ) : ℝ) /
        (((60 : ℝ) - anaTwoPunch.startedAt) / 60) ∧
    (buildStateLocked anaTwoPunch 60).Combined.PunchesPerSec =
      ((anaTwoPunch.left.PunchCount + anaTwoPunch.right.PunchCount : ℕ) : ℝ) /
        ((60 : ℝ) - anaTwoPunch.startedAt) ∧
    (buildStateLocked anaTwoPunch 60).Combined.IntensityScore =
      (if ((60 : ℝ) - anaTwoPunch.startedAt) / 60 > 0.1 then
        ⌊((anaTwoPunch.left.PunchCount + anaTwoPunch.right.PunchCount : ℕ) : ℝ) *
            ((anaTwoPunch.left.forceSum + anaTwoPunch.right.forceSum) /
              ((anaTwoPunch.left.PunchCount + anaTwoPunch.right.PunchCount : ℕ) : ℝ)) /
            (((60 : ℝ) - anaTwoPunch.startedAt) / 60)⌋
       else 0) :=
  (C3_amended_rates anaTwoPunch 60 rfl
      (by norm_num [anaTwoPunch, newHandState])
      (by norm_num [anaTwoPunch, newHandState])).1
    (by norm_num [anaTwoPunch])

/-! ### Claim C6 -/

theorem recordPunch_count (st : HandState) (hn : String) (p : SensorPacket)
    (mag t₀ t₁ : ℝ) :
    (recordPunch st hn p mag t₀ t₁).PunchCount = st.PunchCount + 1 := rfl

theorem recordPunch_forceSum (st : HandState) (hn : String) (p : SensorPacket)
    (mag t₀ t₁ : ℝ) :
    (recordPunch st hn p mag t₀ t₁).forceSum = st.forceSum + mag := rfl

theorem recordPunch_avgForce (st : HandState) (hn : String) (p : SensorPacket)
    (mag t₀ t₁ : ℝ) :
    (recordPunch st hn p mag t₀ t₁).AvgForce =
      (st.forceSum + mag) / ((st.PunchCount + 1 : ℕ) : ℝ) := rfl

theorem recordPunch_maxForce (st : HandState) (hn : String) (p : SensorPacket)
    (mag t₀ t₁ : ℝ) :
    (recordPunch st hn p mag t₀ t₁).MaxForce = max st.MaxForce mag := by
  show (if mag > st.MaxForce then mag else st.MaxForce) = max st.MaxForce mag
  rcases le_or_lt mag st.MaxForce with h | h
  · rw [if_neg (not_lt.mpr h), max_eq_left h]
  · rw [if_pos h, max_eq_right h.le]

theorem recordPunchSeq_stats (evs : List (SensorPacket × ℝ × ℝ)) (hn : String)
    (t₀ : ℝ) (st : HandState) :
    (recordPunchSeq evs hn t₀ st).PunchCount = st.PunchCount + evs.length ∧
    (recordPunchSeq evs hn t₀ st).forceSum =
      st.forceSum + (evs.map (fun e => e.2.1)).sum ∧
    (recordPunchSeq evs hn t₀ st).MaxForce =
      (evs.map (fun e => e.2.1)).foldl max st.MaxForce ∧
    (evs ≠ [] → (recordPunchSeq evs hn t₀ st).AvgForce =
      (st.forceSum + (evs.map (fun e => e.2.1)).sum) /
        ((st.PunchCount + evs.length : ℕ) : ℝ)) := by
  induction evs generalizing st with
  | nil => simp [recordPunchSeq]
  | cons e evs ih =>
    obtain ⟨hc, hs, hm, ha⟩ := ih (recordPunch st hn e.1 e.2.1 t₀ e.2.2)
    have hseq : recordPunchSeq (e :: evs) hn t₀ st
        = recordPunchSeq evs hn t₀ (recordPunch st hn e.1 e.2.1 t₀ e.2.2) := rfl
    refine ⟨?_, ?_, ?_, ?_⟩
    · rw [hseq, hc, recordPunch_count, List.length_cons]
      omega
    · rw [hseq, hs, recordPunch_forceSum, List.map_cons, List.sum_cons]
      ring
    · rw [hseq, hm, recordPunch_maxForce, List.map_cons, List.foldl_cons]
    · intro _
      rcases eq_or_ne evs [] with he | he
      · subst he
        rw [hseq]
        show (recordPunch st hn e.1 e.2.1 t₀ e.2.2).AvgForce = _
        rw [recordPunch_avgForce]
        simp
      · rw [hseq, ha he, recordPunch_forceSum, recordPunch_count,
          List.map_cons, List.sum_cons, List.length_cons]
        rw [show st.forceSum + e.2.1 + (List.map (fun e => e.2.1) evs).sum
            = st.forceSum + (e.2.1 + (List.map (fun e => e.2.1) evs).sum) by ring]
        congr 1
        push_cast
        ring

theorem le_foldl_max (l : List ℝ) (a : ℝ) :
    a ≤ l.foldl max a ∧ ∀ x ∈ l, x ≤ l.foldl max a := by
  induction l generalizing a with
  | nil => simp
  | cons y ys ih =>
    obtain ⟨h1, h2⟩ := ih (max a y)
    refine ⟨le_trans (le_max_left a y) h1, ?_⟩
    intro x hx
    rcases List.mem_cons.mp hx with hx | hx
    · subst hx
      exact le_trans (le_max_right a x) h1
    · exact h2 x hx

theorem foldl_max_mem (l : List ℝ) (a : ℝ) :
    l.foldl max a = a ∨ l.foldl max a ∈ l := by
  induction l generalizing a with
  | nil => simp
  | cons y ys ih =>
    rcases ih (max a y) with h | h
    · rw [List.foldl_cons]
      rcases le_total a y with hay | hay
      · right
        rw [h, max_eq_right hay]
        exact List.mem_cons_self _ _
      · left
        rw [h, max_eq_left hay]
    · right
      rw [List.foldl_cons]
      exact List.mem_cons_of_mem _ h

/-- C6: after any nonempty sequence of recorded events on one hand with
positive forces, the hand's average force is the internally tracked force
sum divided by the event count, and the max force is the maximum of the
recorded forces (it is attained and bounds them all) — no re-summing of
the bounded recent-events list is involved. -/
theorem C6_force_stats (evs : List (SensorPacket × ℝ × ℝ)) (hn : String) (t₀ : ℝ)
    (hne : evs ≠ [])
    (hpos : ∀ e ∈ evs, 0 < e.2.1) :
    (recordPunchSeq evs hn t₀ newHandState).PunchCount = evs.length ∧
    (recordPunchSeq evs hn t₀ newHandState).forceSum =
      (evs.map (fun e => e.2.1)).sum ∧
    (recordPunchSeq evs hn t₀ newHandState).AvgForce =
      (evs.map (fun e => e.2.1)).sum / ((evs.length : ℕ) : ℝ) ∧
    (recordPunchSeq evs hn t₀ newHandState).MaxForce ∈ evs.map (fun e => e.2.1) ∧
    (∀ f ∈ evs.map (fun e => e.2.1),
      f ≤ (recordPunchSeq evs hn t₀ newHandState).MaxForce) := by
  obtain ⟨hc, hs, hm, ha⟩ := recordPunchSeq_stats evs hn t₀ newHandState
  have hc0 : newHandState.PunchCount = 0 := rfl
  have hs0 : newHandState.forceSum = 0 := rfl
  have hm0 : newHandState.MaxForce = 0 := rfl
  refine ⟨by rw [hc, hc0]; omega, by rw [hs, hs0]; ring, ?_, ?_, ?_⟩
  · rw [ha hne, hs0, hc0]
    norm_num
  · rw [hm, hm0]
    rcases foldl_max_mem (evs.map (fun e => e.2.1)) 0 with h | h
    · exfalso
      obtain ⟨e, he⟩ := List.exists_mem_of_ne_nil evs hne
      have hfe : e.2.1 ∈ evs.map (fun e => e.2.1) := List.mem_map_of_mem _ he
      have hle := (le_foldl_max (evs.map (fun e => e.2.1)) 0).2 _ hfe
      rw [h] at hle
      exact absurd (lt_of_lt_of_le (hpos e he) hle) (lt_irrefl 0)
    · exact h
  · intro f hf
    rw [hm, hm0]
    exact (le_foldl_max (evs.map (fun e => e.2.1)) 0).2 f hf

/-- Witness for C6: a single recorded event with force 40. -/
theorem C6_force_stats_witness :
    (recordPunchSeq [(pktLate, 40, 1)] "left" 0 newHandState).PunchCount =
      [(pktLate, ((40 : ℝ), (1 : ℝ)))].length ∧
    (recordPunchSeq [(pktLate, 40, 1)] "left" 0 newHandState).forceSum =
      ([(pktLate, ((40 : ℝ), (1 : ℝ)))].map (fun e => e.2.1)).sum ∧
    (recordPunchSeq [(pktLate, 40, 1)] "left" 0 newHandState).AvgForce =
      ([(pktLate, ((40 : ℝ), (1 : ℝ)))].map (fun e => e.2.1)).sum /
        (([(pktLate, ((40 : ℝ), (1 : ℝ)))].length : ℕ) : ℝ) ∧
    (recordPunchSeq [(pktLate, 40, 1)] "left" 0 newHandState).MaxForce ∈
      [(pktLate, ((40 : ℝ), (1 : ℝ)))].map (fun e => e.2.1) ∧
    (∀ f ∈ [(pktLate, ((40 : ℝ), (1 : ℝ)))].map (fun e => e.2.1),
      f ≤ (recordPunchSeq [(pktLate, 40, 1)] "left" 0 newHandState).MaxForce) :=
  C6_force_stats [(pktLate, 40, 1)] "left" 0 (by simp)
    (by intro e he; simp at he; rw [he]; norm_num)

/-! ### Claim C8 -/

theorem processHand_skip (st : HandState) (hn : String) (p : SensorPacket)
    (active paused : Bool) (t₀ t₁ : ℝ) (h : active = false ∨ paused = true) :
    processHand st hn p active paused t₀ t₁ =
      { st with
        Battery := p.battery
        Calibrated := IsCalibrated p
        CurrentAccel := (axf p, ayf p, azf p)
        CurrentGyro := (gxf p, gyf p, gzf p) } := by
  rcases h with h | h
  · subst h
    rfl
  · subst h
    cases active
    · rfl
    · rfl

theorem processHand_always_live (st : HandState) (hn : String) (p : SensorPacket)
    (active paused : Bool) (t₀ t₁ : ℝ) :
    (processHand st hn p active paused t₀ t₁).Battery = p.battery ∧
    (processHand st hn p active paused t₀ t₁).Calibrated = IsCalibrated p ∧
    (processHand st hn p active paused t₀ t₁).CurrentAccel = (axf p, ayf p, azf p) ∧
    (processHand st hn p active paused t₀ t₁).CurrentGyro = (gxf p, gyf p, gzf p) := by
  cases active
  · exact ⟨rfl, rfl, rfl, rfl⟩
  · cases paused
    · rw [processHand_active]
      split
      · exact ⟨rfl, rfl, rfl, rfl⟩
      · exact ⟨rfl, rfl, rfl, rfl⟩
    · exact ⟨rfl, rfl, rfl, rfl⟩

/-- C8: for every processed sample the selected hand's battery,
calibration flag and live acceleration/angular-rate readings are stored
regardless of session state, and when the session is not active or is
paused the whole analyzer changes in no other way: the other hand, the
session flags and every remaining field of the selected hand are
untouched. -/
theorem C8_frame_effect (a : Analyzer) (hand : Hand) (p : SensorPacket) (now : ℝ) :
    (((ProcessPacket a hand p now).getHand hand).Battery = p.battery ∧
     ((ProcessPacket a hand p now).getHand hand).Calibrated = IsCalibrated p ∧
     ((ProcessPacket a hand p now).getHand hand).CurrentAccel = (axf p, ayf p, azf p) ∧
     ((ProcessPacket a hand p now).getHand hand).CurrentGyro = (gxf p, gyf p, gzf p)) ∧
    (a.active = false ∨ a.paused = true →
      ProcessPacket a hand p now =
        a.setHand hand
          { a.getHand hand with
            Battery := p.battery
            Calibrated := IsCalibrated p
            CurrentAccel := (axf p, ayf p, azf p)
            CurrentGyro := (gxf p, gyf p, gzf p) }) := by
  constructor
  · cases hand
    · exact processHand_always_live a.left "left" p a.active a.paused a.startedAt now
    · exact processHand_always_live a.right "right" p a.active a.paused a.startedAt now
  · intro h
    cases hand
    · simp only [ProcessPacket, Analyzer.getHand, Analyzer.setHand, Hand.name]
      rw [processHand_skip a.left "left" p a.active a.paused a.startedAt now h]
    · simp only [ProcessPacket, Analyzer.getHand, Analyzer.setHand, Hand.name]
      rw [processHand_skip a.right "right" p a.active a.paused a.startedAt now h]

/-- Witness for C8: an inactive analyzer records only the live fields. -/
theorem C8_frame_effect_witness :
    ((ProcessPacket NewAnalyzer Hand.left pktLate 1).getHand Hand.left).Battery =
      pktLate.battery ∧
    ProcessPacket NewAnalyzer Hand.left pktLate 1 =
      NewAnalyzer.setHand Hand.left
        { NewAnalyzer.getHand Hand.left with
          Battery := pktLate.battery
          Calibrated := IsCalibrated pktLate
          CurrentAccel := (axf pktLate, ayf pktLate, azf pktLate)
          CurrentGyro := (gxf pktLate, gyf pktLate, gzf pktLate) } :=
  ⟨(C8_frame_effect NewAnalyzer Hand.left pktLate 1).1.1,
   (C8_frame_effect NewAnalyzer Hand.left pktLate 1).2 (Or.inl rfl)⟩

/-! ### Claim C9 -/

/-- C9: combined statistics are commutative under interleaving of the two
sources — processing a left-hand packet then a right-hand packet yields
the same `CombinedStats` as the opposite order, with the processing and
snapshot instants held equal. -/
theorem C9_combined_commutes (a : Analyzer) (pL pR : SensorPacket) (now tb : ℝ) :
    (buildStateLocked
        (ProcessPacket (ProcessPacket a Hand.left pL now) Hand.right pR now) tb).Combined =
    (buildStateLocked
        (ProcessPacket (ProcessPacket a Hand.right pR now) Hand.left pL now) tb).Combined := rfl

/-! ### Claim C10 -/

theorem applyOp_preserves_flag (a : Analyzer) (op : Op)
    (h : a.paused = true → a.active = true) :
    (applyOp a op).paused = true → (applyOp a op).active = true := by
  cases op with
  | start now =>
    intro _
    rfl
  | reset =>
    intro hp
    exact absurd hp (by simp [applyOp, ResetSession])
  | pause =>
    simp only [applyOp, PauseSession]
    by_cases ha : a.active = true
    · rw [if_pos ha]
      intro _
      exact ha
    · rw [if_neg ha]
      exact h
  | resume =>
    simp only [applyOp, ResumeSession]
    by_cases hb : (a.active && a.paused) = true
    · rw [if_pos hb]
      intro _
      exact (Bool.and_eq_true _ _).mp hb |>.1
    · rw [if_neg hb]
      exact h
  | setConnected hand c =>
    cases hand
    · simp only [applyOp, SetConnected, Analyzer.getHand, Analyzer.setHand]
      cases ha : a.active <;> cases hpp : a.paused <;> cases c <;>
        cases hw : a.left.Connected <;> simp_all
    · simp only [applyOp, SetConnected, Analyzer.getHand, Analyzer.setHand]
      cases ha : a.active <;> cases hpp : a.paused <;> cases c <;>
        cases hw : a.right.Connected <;> simp_all
  | process hand p now =>
    cases hand
    · exact h
    · exact h
  | tick => exact h

/-- C10: in every analyzer state reachable from the initial state by any
sequence of lifecycle, connectivity, packet and tick operations, the
paused flag implies the active flag — no snapshot is published with
paused = true and active = false. -/
theorem C10_paused_implies_active (ops : List Op) :
    (runOps ops).paused = true → (runOps ops).active = true := by
  have key : ∀ (l : List Op) (a : Analyzer), (a.paused = true → a.active = true) →
      ((l.foldl applyOp a).paused = true → (l.foldl applyOp a).active = true) := by
    intro l
    induction l with
    | nil => exact fun a h => h
    | cons op l ih =>
      intro a h
      exact ih (applyOp a op) (applyOp_preserves_flag a op h)
  exact key ops NewAnalyzer (fun hp => absurd hp (by simp [NewAnalyzer]))

/-- Witness for C10: start then pause reaches a paused state, which is
indeed active. -/
theorem C10_witness :
    (runOps [Op.start 0, Op.pause]).paused = true ∧
    (runOps [Op.start 0, Op.pause]).active = true :=
  ⟨rfl, C10_paused_implies_active [Op.start 0, Op.pause] rfl⟩

end SmartPunch
